import Mathlib

/-!
Verification development for the waybackpress core (URL utilities,
content validator, media fetcher, archive-index client).

The Python source is embedded shallowly: pure functions become Lean
functions on lists of characters / strings; the network and the file
system are modelled as explicit environments (oracles) passed to the
embedded operations; per-request outcomes carry an explicit transport
error case.  Regular expressions from the source are translated into
the character-level matching they perform on newline-free URL strings
(URLs here never contain newline characters, where Python's default
regex dollar anchor would differ).  Python's Unicode digit class is
modelled as the ASCII digits, which is what URLs of this system use.
-/

namespace Waybackpress

/-! ## utils.py: normalize_url

`normalize_url` performs, in order:
  1. strip a leading `http://` or `https://`  (re.sub on `^https?://`),
  2. strip a leading `www.`                   (re.sub on `^www\.`),
  3. strip all trailing `/` characters        (str.rstrip),
  4. truncate at the first `?` or `#`         (re.sub on `[?#].*$`).
-/

def hasHttpsPrefixL (l : List Char) : Bool :=
  ("https://".data).isPrefixOf l

def hasHttpPrefixL (l : List Char) : Bool :=
  ("http://".data).isPrefixOf l

def hasWwwPrefixL (l : List Char) : Bool :=
  ("www.".data).isPrefixOf l

/-- Step 1 of normalize_url: remove the scheme. -/
def dropSchemeL (l : List Char) : List Char :=
  if hasHttpsPrefixL l then l.drop 8
  else if hasHttpPrefixL l then l.drop 7
  else l

/-- Step 2 of normalize_url: remove a leading "www.". -/
def dropWwwL (l : List Char) : List Char :=
  if hasWwwPrefixL l then l.drop 4 else l

/-- Step 3 of normalize_url: Python str.rstrip, removing every trailing slash. -/
def rstripSlashL (l : List Char) : List Char :=
  (l.reverse.dropWhile (fun c => c = '/')).reverse

/-- Step 4 of normalize_url: truncate at the first question mark or hash. -/
def dropQueryL (l : List Char) : List Char :=
  l.takeWhile (fun c => ¬ (c = '?' ∨ c = '#'))

def normalizeL (l : List Char) : List Char :=
  dropQueryL (rstripSlashL (dropWwwL (dropSchemeL l)))

/-- utils.normalize_url. -/
def normalize_url (s : String) : String :=
  ⟨normalizeL s.data⟩

/-- Whether a character list ends with a slash (used to state when step 3 is inert). -/
def hasTrailingSlashL (l : List Char) : Bool :=
  match l.getLast? with
  | some c => c = '/'
  | none => false

/-! ## utils.py: extract_slug_from_url

Two regex attempts, in order:
  `/(\d{4})/(\d{2})/(\d{2})/([^/]+)/?$`  (date permalink, group 4), then
  `/([^/]+)/?$`                          (last path segment, group 1).
Both are suffix-anchored; matching is done here on the reversed
character list: drop at most one trailing slash, read the non-slash
segment, and check the context before it. -/

/-- Drop at most one trailing slash of the original string
(the reversed list's head), matching the regex suffix `/?$`. -/
def dropOneSlashRev (r : List Char) : List Char :=
  match r with
  | '/' :: t => t
  | _ => r

/-- Date-permalink slug: the source's first regex.  `l` is the URL's
character list; the reversed tail after the slug must read
two digits, slash, two digits, slash, four digits, slash. -/
def slugDatePattern (l : List Char) : Option (List Char) :=
  let r := dropOneSlashRev l.reverse
  let seg := r.takeWhile (fun c => c ≠ '/')
  let rest := r.dropWhile (fun c => c ≠ '/')
  if seg = [] then none
  else
    match rest with
    | '/' :: d1 :: d2 :: '/' :: m1 :: m2 :: '/' :: y1 :: y2 :: y3 :: y4 :: '/' :: _ =>
      if (List.all [d1, d2, m1, m2, y1, y2, y3, y4] Char.isDigit) then
        some seg.reverse
      else none
    | _ => none

/-- Simple slug: the source's second regex, the last nonempty path segment. -/
def slugSimplePattern (l : List Char) : Option (List Char) :=
  let r := dropOneSlashRev l.reverse
  let seg := r.takeWhile (fun c => c ≠ '/')
  let rest := r.dropWhile (fun c => c ≠ '/')
  if seg = [] then none
  else
    match rest with
    | '/' :: _ => some seg.reverse
    | _ => none

/-- utils.extract_slug_from_url. -/
def extract_slug_from_url (s : String) : Option String :=
  match slugDatePattern s.data with
  | some seg => some ⟨seg⟩
  | none =>
    match slugSimplePattern s.data with
    | some seg => some ⟨seg⟩
    | none => none

/-- utils.construct_wayback_url: pure templating of retrieval URLs. -/
def construct_wayback_url (originalUrl timestamp modifier : String) : String :=
  "https://web.archive.org/web/" ++ timestamp ++ modifier ++ "/" ++ originalUrl

/-! ## Archive-index client (CDX lookups)

A CDX request's outcome, as the callers observe it.  `ok` carries the
HTTP status and the decoded JSON rows; `malformed` is a response whose
body fails to decode as JSON (in the source, `response.json()` raises
inside the try block); `transportError` is any raised transport-level
exception.  For the text-mode endpoint the body is the raw text. -/

inductive CdxOutcome where
  | ok (status : Nat) (rows : List (List String))
  | malformed (status : Nat)
  | transportError

inductive TextOutcome where
  | ok (status : Nat) (body : String)
  | transportError

/-- validate.PostValidator.find_snapshot (the same logic as
ContentExtractor.find_snapshot): status 200 and at least one data row
yields a wayback URL built from `rows[1][1]`; a short row raises
IndexError which the except clause turns into None; everything else
is None. -/
def find_snapshot (url : String) : CdxOutcome → Option String
  | .ok status rows =>
    if status = 200 then
      if rows.length > 1 then
        if (rows.getD 1 []).length ≥ 2 then
          some (construct_wayback_url url ((rows.getD 1 []).getD 1 "") "")
        else none
      else none
    else none
  | .malformed _ => none
  | .transportError => none

/-- fetch.MediaFetcher.get_snapshots: non-200 gives [], fewer than two
rows gives [], otherwise the second field of every row after the
header; a short row raises IndexError inside the try block, collapsing
the whole call to []. -/
def get_snapshots : CdxOutcome → List String
  | .ok status rows =>
    if status ≠ 200 then []
    else if rows.length < 2 then []
    else if rows.tail.all (fun r => r.length ≥ 2) then
      rows.tail.map (fun r => r.getD 1 "")
    else []
  | .malformed _ => []
  | .transportError => []

/-- Python str.strip with no argument: remove leading and trailing
whitespace. -/
def stripL (l : List Char) : List Char :=
  ((l.dropWhile Char.isWhitespace).reverse.dropWhile Char.isWhitespace).reverse

/-- Python str.split on a newline separator. -/
def splitLinesL : List Char → List (List Char)
  | [] => [[]]
  | c :: t =>
    match splitLinesL t with
    | [] => [[c]]
    | l :: ls => if c = '\n' then [] :: l :: ls else (c :: l) :: ls

/-- discover.URLDiscoverer.query_cdx: non-200 or a raised exception
gives []; a 200 body is split into stripped nonempty lines. -/
def query_cdx : TextOutcome → List String
  | .ok status body =>
    if status ≠ 200 then []
    else (((splitLinesL body.data).map stripL).filter
      (fun l => decide (l ≠ []))).map (fun l => (⟨l⟩ : String))
  | .transportError => []

/-! ## validate.py: the content validator -/

/-- Bool test for `pat` occurring as a contiguous substring. -/
def containsSubL (pat : List Char) : List Char → Bool
  | [] => pat.isPrefixOf ([] : List Char)
  | c :: t => pat.isPrefixOf (c :: t) || containsSubL pat t

/-- Suffix `/\d{4}/?$` checked on the reversed character list. -/
def endsYearRev (r : List Char) : Bool :=
  match dropOneSlashRev r with
  | a :: b :: c :: d :: '/' :: _ => List.all [a, b, c, d] Char.isDigit
  | _ => false

/-- Suffix `/\d{4}/\d{2}/?$` checked on the reversed character list. -/
def endsYearMonthRev (r : List Char) : Bool :=
  match dropOneSlashRev r with
  | m1 :: m2 :: '/' :: y1 :: y2 :: y3 :: y4 :: '/' :: _ =>
    List.all [m1, m2, y1, y2, y3, y4] Char.isDigit
  | _ => false

/-- The archive-shape test of PostValidator.apply_heuristics:
`re.search` with `/(category|tag|author|archive|page)/` as an infix
alternative and the year / year-month shapes anchored at the end. -/
def isArchiveUrl (s : String) : Bool :=
  containsSubL "/category/".data s.data ||
  containsSubL "/tag/".data s.data ||
  containsSubL "/author/".data s.data ||
  containsSubL "/archive/".data s.data ||
  containsSubL "/page/".data s.data ||
  endsYearRev s.data.reverse ||
  endsYearMonthRev s.data.reverse

/-- State of the cached-HTML file at a given local path: missing,
present but unreadable (open/read raises), or readable. -/
inductive FileState where
  | absent
  | unreadable
  | readable (html : String)

/-- The fields the extraction cascade can populate.  The cascade
itself (BeautifulSoup parsing, trafilatura, body-class mining) is kept
abstract: the claims below depend only on which fields reach the
acceptance rules, not on how they were mined. -/
structure Extracted where
  title : Option String := none
  content : Option String := none
  post_type : String := "post"

/-- The ValidationRecord fields that validate_url builds. -/
structure VResult where
  url : String
  valid : Bool
  reason : String
  title : Option String
  content : Option String
  post_type : String
  local_path : String
deriving Repr, DecidableEq

/-- The local cached-HTML path derived in validate_url:
`html/<slug>.html` with slug defaulting to "unknown". -/
def localPathFor (url : String) : String :=
  "html/" ++ ((extract_slug_from_url url).getD "unknown") ++ ".html"

/-- PostValidator.apply_heuristics.  `hash` abstracts
utils.compute_content_hash (a SHA1 digest; the claims depend only on
digest equality, so the digest function is a parameter). -/
def apply_heuristics (hash : String → String) (r : VResult) (seen : Finset String) :
    VResult × Finset String :=
  if isArchiveUrl r.url then ({ r with reason := "archive_page" }, seen)
  else
    match r.content with
    | none => ({ r with reason := "no_content" }, seen)
    | some c =>
      if stripL c.data = [] then ({ r with reason := "no_content" }, seen)
      else if hash c ∈ seen then ({ r with reason := "duplicate_content" }, seen)
      else ({ r with valid := true, reason := "ok" }, insert (hash c) seen)

/-- The environment one validation run works against: the local file
system keyed by local path, the CDX index, the wayback download
endpoint (HTML on HTTP 200, none on non-200 or transport error), and
the abstract extraction cascade. -/
structure ValEnv where
  fs : String → FileState
  cdx : String → CdxOutcome
  download : String → Option String
  extract : String → String → Extracted

/-- A network request made while validating one candidate URL:
the snapshot lookup for the candidate, or the HTML download. -/
inductive VRequest where
  | cdxLookup (url : String)
  | fetchHtml (waybackUrl : String)
deriving Repr, DecidableEq

/-- Everything validate_url leaves behind: the record, the updated
seen-fingerprint set, the updated file system, and the network
requests it made for the candidate URL. -/
structure VStep where
  result : VResult
  seen : Finset String
  fs : String → FileState
  requests : List VRequest

/-- The result dict as validate_url initialises it. -/
def initResult (url : String) : VResult :=
  { url := url, valid := false, reason := "", title := none, content := none,
    post_type := "post", local_path := "" }

/-- The tail of validate_url once HTML is in hand: run the extraction
cascade, merge its fields into the record, set local_path, and apply
the acceptance rules. -/
def processHtml (hash : String → String) (env : ValEnv) (seen : Finset String)
    (url path html : String) : VResult × Finset String :=
  let ex := env.extract url html
  let r := { initResult url with
             title := ex.title, content := ex.content,
             post_type := ex.post_type, local_path := path }
  apply_heuristics hash r seen

/-- PostValidator.validate_url.  If the slug-derived cache path is
absent, resolve a snapshot (reason no_snapshot when none) and download
it (reason download_failed on failure, the file is written on
success); if the path is present no request is made; a present but
unreadable file gives reason read_failed; otherwise the extraction
cascade and apply_heuristics run. -/
def validate_url (hash : String → String) (env : ValEnv) (seen : Finset String)
    (url : String) : VStep :=
  let path := localPathFor url
  match env.fs path with
  | .absent =>
    match find_snapshot url (env.cdx url) with
    | none =>
      { result := { initResult url with reason := "no_snapshot" },
        seen := seen, fs := env.fs, requests := [.cdxLookup url] }
    | some wb =>
      match env.download wb with
      | none =>
        { result := { initResult url with reason := "download_failed" },
          seen := seen, fs := env.fs, requests := [.cdxLookup url, .fetchHtml wb] }
      | some html =>
        let fs1 := fun p => if p = path then FileState.readable html else env.fs p
        let pr := processHtml hash env seen url path html
        { result := pr.1, seen := pr.2, fs := fs1,
          requests := [.cdxLookup url, .fetchHtml wb] }
  | .unreadable =>
    { result := { initResult url with reason := "read_failed" },
      seen := seen, fs := env.fs, requests := [] }
  | .readable html =>
    let pr := processHtml hash env seen url path html
    { result := pr.1, seen := pr.2, fs := env.fs, requests := [] }

/-- PostValidator.validate_all: the sequential loop, threading the
seen-fingerprint set and the file system through the run. -/
def validate_all (hash : String → String) (env : ValEnv) (seen : Finset String) :
    List String → List VResult
  | [] => []
  | url :: rest =>
    let st := validate_url hash env seen url
    st.result :: validate_all hash { env with fs := st.fs } st.seen rest

/-- The accepted-subset list written by PostValidator.save_results:
a header line, then one tab-separated url / local_path line per record
with valid = true. -/
def save_valid_posts (results : List VResult) : List String :=
  "url\tlocal_path" ::
    (results.filter (fun r => r.valid)).map (fun r => r.url ++ "\t" ++ r.local_path)

/-! ## fetch.py: the media fetcher -/

/-- The record download_asset builds (the media ledger's row shape).
The source's status strings are 'OK', 'FAIL', 'SKIP'; the spec's
success/fail/skip name the same three values.  `size` is present only
on success (csv.DictWriter fills the missing field with ''). -/
structure AssetRecord where
  asset_url : String
  local_path : String
  status : String
  snapshots_tried : Nat
  snapshots_available : Nat
  success_timestamp : Option String
  size : Option Nat
deriving Repr, DecidableEq

/-- A network request of the fetch pass, tagged with the asset URL it
references (both the CDX query and every snapshot retrieval embed the
asset's URL in the request target). -/
structure FRequest where
  asset : String
  target : String
deriving Repr, DecidableEq

/-- The environment of one fetch pass: local file presence, the CDX
index, and the per-snapshot retrieval outcome (byte count on HTTP 200,
none on non-200 status or a raised exception). -/
structure FetchEnv where
  fileExists : String → Bool
  cdx : String → CdxOutcome
  attempt : String → String → Option Nat

/-- The CDX query URL used by get_snapshots. -/
def cdxQueryUrl (url : String) (limit : Nat) : String :=
  "https://web.archive.org/cdx/search/cdx?url=" ++ url ++
    "&output=json&limit=" ++ toString limit

/-- utils.get_local_path_for_url: base dir, then netloc/path of the
asset URL (query and fragment dropped by urlparse; percent-decoding
omitted here as no claim depends on it). -/
def mediaPathFor (url : String) : String :=
  "media/" ++ (⟨dropQueryL (dropSchemeL url.data)⟩ : String)

/-- The per-snapshot retry loop of download_asset: snapshots_tried is
bumped to i+1 before attempt i; the first HTTP 200 saves the bytes and
stops; a non-success response or exception moves on. -/
def attemptLoop (env : FetchEnv) (url : String) :
    List String → AssetRecord → AssetRecord × List FRequest
  | [], rec => (rec, [])
  | ts :: rest, rec =>
    let rec1 := { rec with snapshots_tried := rec.snapshots_tried + 1 }
    let req : FRequest := { asset := url, target := construct_wayback_url url ts "im_" }
    match env.attempt url ts with
    | some n =>
      ({ rec1 with status := "OK", success_timestamp := some ts, size := some n }, [req])
    | none =>
      let r := attemptLoop env url rest rec1
      (r.1, req :: r.2)

/-- fetch.MediaFetcher.download_asset (max_attempts keeps its default
of 5, which is the CDX query's limit parameter). -/
def download_asset (env : FetchEnv) (url : String) : AssetRecord × List FRequest :=
  let lp := mediaPathFor url
  let base : AssetRecord :=
    { asset_url := url, local_path := lp, status := "FAIL", snapshots_tried := 0,
      snapshots_available := 0, success_timestamp := none, size := none }
  if env.fileExists lp then ({ base with status := "SKIP" }, [])
  else
    let cdxReq : FRequest := { asset := url, target := cdxQueryUrl url 5 }
    let tss := get_snapshots (env.cdx url)
    let base1 := { base with snapshots_available := tss.length }
    if tss = [] then (base1, [cdxReq])
    else
      let r := attemptLoop env url tss base1
      (r.1, cdxReq :: r.2)

/-- fetch_all's to-fetch set: every discovered media URL whose entry
in the loaded previous ledger is not 'OK' (missing entries count as
not 'OK': dict.get returns None). -/
def to_fetch (mediaUrls : List String) (previous : String → Option String) :
    List String :=
  mediaUrls.filter (fun u => decide (previous u ≠ some "OK"))

/-- The records fetch_all accumulates in self.results: one per
to-fetch URL.  (asyncio.as_completed delivers them in arrival order, a
permutation of this list; no claim below depends on the order.) -/
def pass_results (env : FetchEnv) (mediaUrls : List String)
    (previous : String → Option String) : List AssetRecord :=
  (to_fetch mediaUrls previous).map (fun u => (download_asset env u).1)

/-- Every network request the pass issues, concatenated over the
download tasks; tasks are created only for to-fetch URLs. -/
def pass_requests (env : FetchEnv) (mediaUrls : List String)
    (previous : String → Option String) : List FRequest :=
  (to_fetch mediaUrls previous).flatMap (fun u => (download_asset env u).2)

/-- The ledger file after the pass's final save_results: the file is
opened in mode 'w' and exactly the rows of self.results are written;
rows loaded from the previous ledger are not merged in. -/
def ledger_after_pass (env : FetchEnv) (mediaUrls : List String)
    (previous : String → Option String) : List AssetRecord :=
  pass_results env mediaUrls previous

/-! ## Concrete environments used for counterexamples and witnesses -/

/-- A validation environment whose only cached file exists but cannot
be read (open/read raises although Path.exists is true). -/
def envUnreadable : ValEnv :=
  { fs := fun p => if p = "html/my-post.html" then .unreadable else .absent,
    cdx := fun _ => .transportError,
    download := fun _ => none,
    extract := fun _ _ => {} }

/-- Two cached pages with identical extracted text, the first of which
has an archive-shaped URL. -/
def envArchiveDup : ValEnv :=
  { fs := fun p =>
      if p = "html/news.html" ∨ p = "html/my-post.html" then .readable "<html>"
      else .absent,
    cdx := fun _ => .transportError,
    download := fun _ => none,
    extract := fun _ _ => { content := some "hello world" } }

/-- Two cached non-archive pages with identical extracted text. -/
def envTwoPosts : ValEnv :=
  { fs := fun p =>
      if p = "html/post-a.html" ∨ p = "html/post-b.html" then .readable "<html>"
      else .absent,
    cdx := fun _ => .transportError,
    download := fun _ => none,
    extract := fun _ _ => { content := some "hello world" } }

/-- A fetch environment: no file downloaded yet, the index returns
three snapshots for every asset, every snapshot attempt fails. -/
def envAllFail : FetchEnv :=
  { fileExists := fun _ => false,
    cdx := fun _ => .ok 200 [["k", "ts"], ["k", "t1"], ["k", "t2"], ["k", "t3"]],
    attempt := fun _ _ => none }

/-- A previous-pass ledger recording one asset as downloaded. -/
def prevLedgerOK : String → Option String :=
  fun u => if u = "http://example.com/img/a.png" then some "OK" else none

/-- A validation environment with an empty cache where the index
resolves a snapshot and the download succeeds. -/
def envDatePost : ValEnv :=
  { fs := fun _ => .absent,
    cdx := fun _ => .ok 200 [["key", "ts"], ["key", "20200115000000"]],
    download := fun _ => some "<html>",
    extract := fun _ _ => { content := some "hello" } }

/-- An accepted ValidationRecord whose post type is page. -/
def recPage : VResult :=
  { url := "example.com/p", valid := true, reason := "ok", title := none,
    content := some "x", post_type := "page", local_path := "html/p.html" }

/-- A fresh record as validate_url hands it to the acceptance rules. -/
def recPending : VResult :=
  { url := "example.com/my-post", valid := false, reason := "", title := none,
    content := some "body text", post_type := "post", local_path := "html/my-post.html" }

/-! # Theorems

## Claim C2: normalization idempotence -/

theorem dropQueryL_idem (l : List Char) : dropQueryL (dropQueryL l) = dropQueryL l :=
  List.takeWhile_idem

theorem rstripSlashL_of_no_trailing (l : List Char) (h : hasTrailingSlashL l = false) :
    rstripSlashL l = l := by
  rcases List.eq_nil_or_concat l with rfl | ⟨l2, a, rfl⟩
  · rfl
  · have ha : (a = '/') = False := by
      have := h
      simp only [hasTrailingSlashL, List.getLast?_concat] at this
      simpa using this
    simp [rstripSlashL, List.dropWhile_cons, ha]

theorem dropSchemeL_of (l : List Char) (h1 : hasHttpsPrefixL l = false)
    (h2 : hasHttpPrefixL l = false) : dropSchemeL l = l := by
  simp [dropSchemeL, h1, h2]

theorem dropWwwL_of (l : List Char) (h : hasWwwPrefixL l = false) :
    dropWwwL l = l := by
  simp [dropWwwL, h]

theorem normalizeL_idem_of_stable (l : List Char)
    (h1 : hasHttpsPrefixL (normalizeL l) = false)
    (h2 : hasHttpPrefixL (normalizeL l) = false)
    (h3 : hasWwwPrefixL (normalizeL l) = false)
    (h4 : hasTrailingSlashL (normalizeL l) = false) :
    normalizeL (normalizeL l) = normalizeL l := by
  have step : normalizeL (normalizeL l) =
      dropQueryL (rstripSlashL (dropWwwL (dropSchemeL (normalizeL l)))) := rfl
  rw [step, dropSchemeL_of _ h1 h2, dropWwwL_of _ h3, rstripSlashL_of_no_trailing _ h4]
  have expand : normalizeL l = dropQueryL (rstripSlashL (dropWwwL (dropSchemeL l))) := rfl
  rw [expand, dropQueryL_idem]

/-- C2 (corrected): the spec claims `normalize(normalize(u)) == normalize(u)`
for all inputs, which fails (see the counterexample): the trailing-slash
strip runs before query removal, and stacked scheme or www prefixes are
stripped one layer per application.  The amended claim: normalization is
idempotent on every input whose normalized form carries no scheme prefix,
no leading "www.", and no trailing slash. -/
theorem normalize_url_idem_of_stable (u : String)
    (h1 : hasHttpsPrefixL (normalize_url u).data = false)
    (h2 : hasHttpPrefixL (normalize_url u).data = false)
    (h3 : hasWwwPrefixL (normalize_url u).data = false)
    (h4 : hasTrailingSlashL (normalize_url u).data = false) :
    normalize_url (normalize_url u) = normalize_url u :=
  congrArg (fun l => (⟨l⟩ : String)) (normalizeL_idem_of_stable u.data h1 h2 h3 h4)

/-- C2 witness: a concrete stable input where the amended theorem applies. -/
theorem normalize_url_idem_witness :
    normalize_url (normalize_url "https://www.example.com/my-post") =
      normalize_url "https://www.example.com/my-post" :=
  normalize_url_idem_of_stable "https://www.example.com/my-post"
    (by decide) (by decide) (by decide) (by decide)

/-- C2 counterexample: the claim as stated fails — one application keeps
the trailing slash uncovered by query removal, the second strips it. -/
theorem normalize_url_not_idem :
    normalize_url (normalize_url "example.com/a/?q=1") ≠
      normalize_url "example.com/a/?q=1" := by decide

/-! ## apply_heuristics: structural lemmas -/

theorem apply_heuristics_url (hash : String → String) (r : VResult) (s : Finset String) :
    (apply_heuristics hash r s).1.url = r.url := by
  unfold apply_heuristics
  repeat' split
  all_goals rfl

theorem apply_heuristics_content (hash : String → String) (r : VResult) (s : Finset String) :
    (apply_heuristics hash r s).1.content = r.content := by
  unfold apply_heuristics
  repeat' split
  all_goals rfl

/-- Either the record is accepted — its content is a nonempty fresh
fingerprint and the seen set gains exactly that fingerprint — or the
record's valid flag is untouched and the seen set is unchanged. -/
theorem apply_heuristics_cases (hash : String → String) (r : VResult) (s : Finset String) :
    (∃ c, r.content = some c ∧ isArchiveUrl r.url = false ∧ stripL c.data ≠ [] ∧
       hash c ∉ s ∧
       apply_heuristics hash r s =
         ({ r with valid := true, reason := "ok" }, insert (hash c) s)) ∨
    ((apply_heuristics hash r s).1.valid = r.valid ∧ (apply_heuristics hash r s).2 = s) := by
  unfold apply_heuristics
  split
  · right; exact ⟨rfl, rfl⟩
  · rename_i harc
    split
    · right; exact ⟨rfl, rfl⟩
    · rename_i c hc
      split
      · right; exact ⟨rfl, rfl⟩
      · rename_i hstrip
        split
        · right; exact ⟨rfl, rfl⟩
        · rename_i hmem
          left
          exact ⟨c, hc, by simpa using harc, hstrip, hmem, rfl⟩

theorem apply_heuristics_dup (hash : String → String) (r : VResult) (s : Finset String)
    (c : String) (harc : isArchiveUrl r.url = false) (hc : r.content = some c)
    (hstrip : stripL c.data ≠ []) (hmem : hash c ∈ s) :
    apply_heuristics hash r s = ({ r with reason := "duplicate_content" }, s) := by
  simp [apply_heuristics, harc, hc, hstrip, hmem]

theorem apply_heuristics_reason_mem (hash : String → String) (r : VResult)
    (s : Finset String) :
    (apply_heuristics hash r s).1.reason ∈
      (["archive_page", "no_content", "duplicate_content", "ok"] : List String) := by
  unfold apply_heuristics
  repeat' split
  all_goals simp

/-- C10 (confirmed): when the acceptance check rejects a record handed
over with valid = false (as validate_url always does), the
seen-fingerprint set is unchanged; when it accepts, the set gains
exactly the record's content fingerprint, which was not yet present;
and the set changes if and only if the record is accepted. -/
theorem apply_heuristics_seen_atomic (hash : String → String) (r : VResult)
    (s : Finset String) (hv : r.valid = false) :
    ((apply_heuristics hash r s).1.valid = false → (apply_heuristics hash r s).2 = s) ∧
    ((apply_heuristics hash r s).1.valid = true →
      ∃ c, r.content = some c ∧ hash c ∉ s ∧
        (apply_heuristics hash r s).2 = insert (hash c) s) ∧
    ((apply_heuristics hash r s).1.valid = true ↔ (apply_heuristics hash r s).2 ≠ s) := by
  rcases apply_heuristics_cases hash r s with ⟨c, hc, _, _, hmem, heq⟩ | ⟨hval, hseen⟩
  · rw [heq]
    refine ⟨fun h => by simp at h, fun _ => ⟨c, hc, hmem, rfl⟩, ?_⟩
    exact ⟨fun _ h => hmem (Finset.insert_eq_self.mp h), fun _ => rfl⟩
  · rw [hv] at hval
    refine ⟨fun _ => hseen, fun h => absurd (hval.symm.trans h) (by simp), ?_⟩
    constructor
    · intro h; exact absurd (hval.symm.trans h) (by simp)
    · intro h; exact absurd hseen h

/-- C10 witness: a fresh record with nonempty content over the empty
seen set is accepted, and the set visibly grows. -/
theorem apply_heuristics_seen_atomic_witness :
    (apply_heuristics id recPending ∅).1.valid = true ↔
      (apply_heuristics id recPending ∅).2 ≠ ∅ :=
  (apply_heuristics_seen_atomic id recPending ∅ rfl).2.2

/-! ## Claim C3: the rejection-reason enumeration -/

theorem processHtml_reason_mem (hash : String → String) (env : ValEnv)
    (seen : Finset String) (url path html : String) :
    (processHtml hash env seen url path html).1.reason ∈
      (["archive_page", "no_content", "duplicate_content", "ok"] : List String) :=
  apply_heuristics_reason_mem hash _ seen

theorem reason_small_to_full (x : String)
    (h : x ∈ (["archive_page", "no_content", "duplicate_content", "ok"] : List String)) :
    x ∈ (["ok", "archive_page", "no_snapshot", "download_failed", "read_failed",
      "no_content", "duplicate_content"] : List String) := by
  simp only [List.mem_cons, List.not_mem_nil, or_false] at h ⊢
  tauto

/-- C3 (corrected): validate_url's reason is always one of seven
values: the six the spec enumerates (with 'ok' as the source's literal
for the spec's none) plus 'read_failed', produced when the cached HTML
file exists but cannot be read. -/
theorem validate_url_reason_mem (hash : String → String) (env : ValEnv)
    (seen : Finset String) (url : String) :
    (validate_url hash env seen url).result.reason ∈
      (["ok", "archive_page", "no_snapshot", "download_failed", "read_failed",
        "no_content", "duplicate_content"] : List String) := by
  simp only [validate_url]
  split
  · split
    · simp
    · split
      · simp
      · exact reason_small_to_full _ (processHtml_reason_mem hash env seen url _ _)
  · simp
  · exact reason_small_to_full _ (processHtml_reason_mem hash env seen url _ _)

/-- C3 counterexample: at a cached-but-unreadable file the produced
reason is read_failed, which is outside the spec's six-value
enumeration. -/
theorem validate_url_reason_extra :
    (validate_url id envUnreadable ∅ "example.com/my-post").result.reason = "read_failed" ∧
    "read_failed" ∉ (["none", "archive_page", "no_snapshot", "download_failed",
      "no_content", "duplicate_content"] : List String) := by
  refine ⟨?_, by decide⟩
  rfl

/-! ## Claim C4: the accepted-subset columns -/

/-- C4 (corrected): the accepted-subset list has exactly the two
columns url and local_path.  Every accepted record contributes its
url-tab-local_path line (a single tab, hence two fields, when neither
field contains a tab); every line is the header or such a line; the
record's post type is never written. -/
theorem save_valid_posts_columns (results : List VResult) :
    (save_valid_posts results).length = 1 + (results.filter (fun r => r.valid)).length ∧
    (∀ r ∈ results, r.valid = true →
      (r.url ++ "\t" ++ r.local_path) ∈ save_valid_posts results) ∧
    (∀ line ∈ save_valid_posts results,
      line = "url\tlocal_path" ∨
        ∃ r, r ∈ results ∧ r.valid = true ∧ line = r.url ++ "\t" ++ r.local_path) ∧
    (∀ r : VResult, r.url.data.count '\t' = 0 → r.local_path.data.count '\t' = 0 →
      (r.url ++ "\t" ++ r.local_path).data.count '\t' = 1) := by
  refine ⟨?_, ?_, ?_, ?_⟩
  · simp [save_valid_posts, Nat.add_comm]
  · intro r hr hv
    exact List.mem_cons_of_mem _
      (List.mem_map_of_mem _ (List.mem_filter.mpr ⟨hr, by simp [hv]⟩))
  · intro line hline
    rcases List.mem_cons.mp hline with h | h
    · exact Or.inl h
    · obtain ⟨r, hr, hmap⟩ := List.mem_map.mp h
      exact Or.inr ⟨r, (List.mem_filter.mp hr).1,
        by simpa using (List.mem_filter.mp hr).2, hmap.symm⟩
  · intro r hu hp
    have hd : (r.url ++ "\t" ++ r.local_path).data =
        (r.url.data ++ ['\t']) ++ r.local_path.data := rfl
    rw [hd, List.count_append, List.count_append, hu, hp]
    rfl

/-- C4 counterexample: an accepted record with post type page produces
a two-field row that nowhere carries the post type. -/
theorem save_valid_posts_no_post_type :
    save_valid_posts [recPage] = ["url\tlocal_path", "example.com/p\thtml/p.html"] ∧
    ("example.com/p\thtml/p.html").data.count '\t' = 1 ∧
    containsSubL "page".data ("example.com/p\thtml/p.html").data = false := by
  refine ⟨rfl, by decide, by decide⟩

/-- C4 witness: the accepted record's two-column row is in the list. -/
theorem save_valid_posts_columns_witness :
    ("example.com/p" ++ "\t" ++ "html/p.html") ∈ save_valid_posts [recPage] :=
  (save_valid_posts_columns [recPage]).2.1 recPage (by decide) rfl

/-! ## validate_url: branch analysis -/

/-- validate_url takes exactly one of five paths: missing cache and no
snapshot; missing cache and failed download; missing cache, download,
write, extraction and acceptance rules; unreadable cache; readable
cache with extraction and acceptance rules. -/
theorem validate_url_branches (hash : String → String) (env : ValEnv)
    (seen : Finset String) (url : String) :
    (env.fs (localPathFor url) = FileState.absent ∧
      find_snapshot url (env.cdx url) = none ∧
      validate_url hash env seen url =
        { result := { initResult url with reason := "no_snapshot" }, seen := seen,
          fs := env.fs, requests := [VRequest.cdxLookup url] }) ∨
    (env.fs (localPathFor url) = FileState.absent ∧ ∃ wb,
      find_snapshot url (env.cdx url) = some wb ∧ env.download wb = none ∧
      validate_url hash env seen url =
        { result := { initResult url with reason := "download_failed" }, seen := seen,
          fs := env.fs, requests := [VRequest.cdxLookup url, VRequest.fetchHtml wb] }) ∨
    (env.fs (localPathFor url) = FileState.absent ∧ ∃ wb html,
      find_snapshot url (env.cdx url) = some wb ∧ env.download wb = some html ∧
      validate_url hash env seen url =
        { result := (processHtml hash env seen url (localPathFor url) html).1,
          seen := (processHtml hash env seen url (localPathFor url) html).2,
          fs := fun p => if p = localPathFor url then FileState.readable html else env.fs p,
          requests := [VRequest.cdxLookup url, VRequest.fetchHtml wb] }) ∨
    (env.fs (localPathFor url) = FileState.unreadable ∧
      validate_url hash env seen url =
        { result := { initResult url with reason := "read_failed" }, seen := seen,
          fs := env.fs, requests := [] }) ∨
    (∃ html, env.fs (localPathFor url) = FileState.readable html ∧
      validate_url hash env seen url =
        { result := (processHtml hash env seen url (localPathFor url) html).1,
          seen := (processHtml hash env seen url (localPathFor url) html).2,
          fs := env.fs, requests := [] }) := by
  rcases hfs : env.fs (localPathFor url) with _ | _ | html
  · rcases hsnap : find_snapshot url (env.cdx url) with _ | wb
    · refine Or.inl ⟨rfl, rfl, ?_⟩
      simp only [validate_url, hfs, hsnap]
    · rcases hdl : env.download wb with _ | html
      · refine Or.inr (Or.inl ⟨rfl, wb, rfl, hdl, ?_⟩)
        simp only [validate_url, hfs, hsnap, hdl]
      · refine Or.inr (Or.inr (Or.inl ⟨rfl, wb, html, rfl, hdl, ?_⟩))
        simp only [validate_url, hfs, hsnap, hdl]
  · refine Or.inr (Or.inr (Or.inr (Or.inl ⟨rfl, ?_⟩)))
    simp only [validate_url, hfs]
  · refine Or.inr (Or.inr (Or.inr (Or.inr ⟨html, rfl, ?_⟩)))
    simp only [validate_url, hfs]

/-- Either validate_url returns early — record invalid, one of the
three early reasons, seen set untouched — or its record and seen set
are those of apply_heuristics on a freshly built record for this URL. -/
theorem validate_url_early_or_heuristics (hash : String → String) (env : ValEnv)
    (seen : Finset String) (url : String) :
    ((validate_url hash env seen url).result.valid = false ∧
      (validate_url hash env seen url).seen = seen ∧
      ((validate_url hash env seen url).result.reason = "no_snapshot" ∨
       (validate_url hash env seen url).result.reason = "download_failed" ∨
       (validate_url hash env seen url).result.reason = "read_failed")) ∨
    (∃ r0, r0.valid = false ∧ r0.url = url ∧
      (validate_url hash env seen url).result = (apply_heuristics hash r0 seen).1 ∧
      (validate_url hash env seen url).seen = (apply_heuristics hash r0 seen).2) := by
  rcases validate_url_branches hash env seen url with
    ⟨_, _, heq⟩ | ⟨_, wb, _, _, heq⟩ | ⟨_, wb, html, _, _, heq⟩ | ⟨_, heq⟩ | ⟨html, _, heq⟩
  · left; rw [heq]; exact ⟨rfl, rfl, Or.inl rfl⟩
  · left; rw [heq]; exact ⟨rfl, rfl, Or.inr (Or.inl rfl)⟩
  · right
    refine ⟨{ initResult url with
        title := (env.extract url html).title,
        content := (env.extract url html).content,
        post_type := (env.extract url html).post_type,
        local_path := localPathFor url }, rfl, rfl, ?_, ?_⟩ <;> (rw [heq]; rfl)
  · left; rw [heq]; exact ⟨rfl, rfl, Or.inr (Or.inr rfl)⟩
  · right
    refine ⟨{ initResult url with
        title := (env.extract url html).title,
        content := (env.extract url html).content,
        post_type := (env.extract url html).post_type,
        local_path := localPathFor url }, rfl, rfl, ?_, ?_⟩ <;> (rw [heq]; rfl)

/-- An accepted record's content is a nonempty text whose fingerprint
was fresh and is now recorded. -/
theorem validate_url_accept (hash : String → String) (env : ValEnv)
    (seen : Finset String) (url : String)
    (h : (validate_url hash env seen url).result.valid = true) :
    ∃ c, (validate_url hash env seen url).result.content = some c ∧
      stripL c.data ≠ [] ∧ hash c ∉ seen ∧
      (validate_url hash env seen url).seen = insert (hash c) seen := by
  rcases validate_url_early_or_heuristics hash env seen url with
    ⟨hv, _, _⟩ | ⟨r0, hv0, _, hres, hseen⟩
  · rw [h] at hv; simp at hv
  · rcases apply_heuristics_cases hash r0 seen with
      ⟨c, hc, _, hstrip, hmem, he⟩ | ⟨hval, _⟩
    · refine ⟨c, ?_, hstrip, hmem, ?_⟩
      · rw [hres, he]; exact hc
      · rw [hseen, he]
    · exfalso
      rw [hres] at h
      rw [h, hv0] at hval
      simp at hval

theorem validate_url_seen_mono (hash : String → String) (env : ValEnv)
    (seen : Finset String) (url : String) :
    seen ⊆ (validate_url hash env seen url).seen := by
  rcases validate_url_early_or_heuristics hash env seen url with
    ⟨_, hs, _⟩ | ⟨r0, _, _, _, hseen⟩
  · rw [hs]
  · rw [hseen]
    rcases apply_heuristics_cases hash r0 seen with ⟨c, _, _, _, _, he⟩ | ⟨_, hs⟩
    · rw [he]; exact Finset.subset_insert _ _
    · rw [hs]

theorem validate_url_heuristic (hash : String → String) (env : ValEnv)
    (seen : Finset String) (url : String)
    (h1 : (validate_url hash env seen url).result.reason ≠ "no_snapshot")
    (h2 : (validate_url hash env seen url).result.reason ≠ "download_failed")
    (h3 : (validate_url hash env seen url).result.reason ≠ "read_failed") :
    ∃ r0, r0.valid = false ∧ r0.url = url ∧
      (validate_url hash env seen url).result = (apply_heuristics hash r0 seen).1 ∧
      (validate_url hash env seen url).seen = (apply_heuristics hash r0 seen).2 := by
  rcases validate_url_early_or_heuristics hash env seen url with ⟨_, _, hr⟩ | h
  · rcases hr with h | h | h
    · exact absurd h h1
    · exact absurd h h2
    · exact absurd h h3
  · exact h

/-- Unless validate_url reported no_snapshot or download_failed, the
cached-HTML path is present in the resulting file system. -/
theorem validate_url_fs_present (hash : String → String) (env : ValEnv)
    (seen : Finset String) (url : String)
    (h1 : (validate_url hash env seen url).result.reason ≠ "no_snapshot")
    (h2 : (validate_url hash env seen url).result.reason ≠ "download_failed") :
    (validate_url hash env seen url).fs (localPathFor url) ≠ FileState.absent := by
  rcases validate_url_branches hash env seen url with
    ⟨_, _, heq⟩ | ⟨_, wb, _, _, heq⟩ | ⟨_, wb, html, _, _, heq⟩ | ⟨hun, heq⟩ |
    ⟨html, hrd, heq⟩
  · exact absurd (by rw [heq]) h1
  · exact absurd (by rw [heq]) h2
  · rw [heq]; simp
  · rw [heq]
    show env.fs (localPathFor url) ≠ FileState.absent
    rw [hun]; simp
  · rw [heq]
    show env.fs (localPathFor url) ≠ FileState.absent
    rw [hrd]; simp

/-- A present cached-HTML file means validate_url issues no network
request at all. -/
theorem validate_url_no_requests (hash : String → String) (env : ValEnv)
    (seen : Finset String) (url : String)
    (h : env.fs (localPathFor url) ≠ FileState.absent) :
    (validate_url hash env seen url).requests = [] := by
  rcases validate_url_branches hash env seen url with
    ⟨habs, _, _⟩ | ⟨habs, _, _, _, _⟩ | ⟨habs, _, _, _, _, _⟩ | ⟨_, heq⟩ | ⟨_, _, heq⟩
  · exact absurd habs h
  · exact absurd habs h
  · exact absurd habs h
  · rw [heq]
  · rw [heq]

/-! ## Claim C9: cache-path collision between equal slugs -/

/-- C9 (confirmed): two candidate URLs with equal extracted slugs share
the derived cached-HTML path html/<slug>.html; once the first
validation has left that file present (its record's reason is neither
no_snapshot nor download_failed), validating the second issues no
snapshot lookup and no download. -/
theorem cache_path_collision (hash : String → String) (env : ValEnv)
    (seen : Finset String) (u1 u2 : String)
    (hslug : extract_slug_from_url u1 = extract_slug_from_url u2)
    (h1 : (validate_url hash env seen u1).result.reason ≠ "no_snapshot")
    (h2 : (validate_url hash env seen u1).result.reason ≠ "download_failed") :
    localPathFor u1 = localPathFor u2 ∧
    (validate_url hash { env with fs := (validate_url hash env seen u1).fs }
      (validate_url hash env seen u1).seen u2).requests = [] := by
  have hpath : localPathFor u1 = localPathFor u2 := by
    unfold localPathFor; rw [hslug]
  refine ⟨hpath, ?_⟩
  have hfs := validate_url_fs_present hash env seen u1 h1 h2
  rw [hpath] at hfs
  exact validate_url_no_requests hash _ _ u2 hfs

/-- C9 witness: a date permalink and a bare slug with the same final
segment; after the first is validated (downloading its snapshot), the
second's validation issues zero requests. -/
theorem cache_path_collision_witness :
    localPathFor "example.com/2020/01/15/my-post/" = localPathFor "example.com/my-post" ∧
    (validate_url id { envDatePost with
        fs := (validate_url id envDatePost ∅ "example.com/2020/01/15/my-post/").fs }
      (validate_url id envDatePost ∅ "example.com/2020/01/15/my-post/").seen
      "example.com/my-post").requests = [] :=
  cache_path_collision id envDatePost ∅ "example.com/2020/01/15/my-post/"
    "example.com/my-post" (by decide) (by decide) (by decide)

/-! ## Claim C5: cross-URL content deduplication -/

/-- No accepted record of a run carries a fingerprint that was already
in the seen set the run started from. -/
theorem validate_all_fresh (hash : String → String) (urls : List String) :
    ∀ (env : ValEnv) (s : Finset String),
      ∀ b ∈ validate_all hash env s urls, b.valid = true →
        ∀ cb, b.content = some cb → hash cb ∉ s := by
  induction urls with
  | nil =>
    intro env s b hb
    simp [validate_all] at hb
  | cons u rest ih =>
    intro env s b hb hv cb hcb
    simp only [validate_all] at hb
    rcases List.mem_cons.mp hb with rfl | hb2
    · obtain ⟨c, hc, _, hmem, _⟩ := validate_url_accept hash env s u hv
      rw [hcb] at hc
      obtain rfl := Option.some.inj hc
      exact hmem
    · intro hin
      exact ih _ _ b hb2 hv cb hcb (validate_url_seen_mono hash env s u hin)

theorem validate_all_pairwise_aux (hash : String → String) (urls : List String) :
    ∀ (env : ValEnv) (s : Finset String),
      List.Pairwise (fun a b => a.valid = true → b.valid = true →
          ∀ ca cb, a.content = some ca → b.content = some cb → hash ca ≠ hash cb)
        (validate_all hash env s urls) := by
  induction urls with
  | nil => intro env s; simp [validate_all]
  | cons u rest ih =>
    intro env s
    simp only [validate_all]
    refine List.Pairwise.cons ?_ (ih _ _)
    intro b hb hva hvb ca cb hca hcb heq
    obtain ⟨c, hc, _, _, hseen⟩ := validate_url_accept hash env s u hva
    rw [hca] at hc
    obtain rfl := Option.some.inj hc
    refine validate_all_fresh hash rest _ _ b hb hvb cb hcb ?_
    rw [← heq, hseen]
    exact Finset.mem_insert_self _ _

/-- C5 (corrected): (i) across one run no two accepted records share a
content fingerprint; (ii) if the first of two consecutively validated
URLs is accepted with extracted text c and the second also extracts
exactly c, reaches the acceptance rules (its reason is none of
no_snapshot, download_failed, read_failed) and is not archive-shaped,
then the second is rejected with reason duplicate_content — so exactly
one of the two is accepted.  (The unamended claim fails when an
earlier duplicate is itself rejected, e.g. as an archive page: then
the later duplicate is accepted instead; see the counterexample.) -/
theorem cross_url_dedup (hash : String → String) (env : ValEnv) (seen : Finset String) :
    (∀ urls, List.Pairwise (fun a b => a.valid = true → b.valid = true →
        ∀ ca cb, a.content = some ca → b.content = some cb → hash ca ≠ hash cb)
      (validate_all hash env seen urls)) ∧
    (∀ u1 u2 c,
      (validate_url hash env seen u1).result.valid = true →
      (validate_url hash env seen u1).result.content = some c →
      (validate_url hash { env with fs := (validate_url hash env seen u1).fs }
          (validate_url hash env seen u1).seen u2).result.content = some c →
      isArchiveUrl u2 = false →
      (validate_url hash { env with fs := (validate_url hash env seen u1).fs }
          (validate_url hash env seen u1).seen u2).result.reason ≠ "no_snapshot" →
      (validate_url hash { env with fs := (validate_url hash env seen u1).fs }
          (validate_url hash env seen u1).seen u2).result.reason ≠ "download_failed" →
      (validate_url hash { env with fs := (validate_url hash env seen u1).fs }
          (validate_url hash env seen u1).seen u2).result.reason ≠ "read_failed" →
      (validate_url hash { env with fs := (validate_url hash env seen u1).fs }
          (validate_url hash env seen u1).seen u2).result.valid = false ∧
      (validate_url hash { env with fs := (validate_url hash env seen u1).fs }
          (validate_url hash env seen u1).seen u2).result.reason = "duplicate_content") := by
  constructor
  · intro urls; exact validate_all_pairwise_aux hash urls env seen
  · intro u1 u2 c hv1 hc1 hc2 harc hns hdf hrf
    obtain ⟨c1, hc1x, hstrip, _, hseen1⟩ := validate_url_accept hash env seen u1 hv1
    rw [hc1] at hc1x
    obtain rfl := Option.some.inj hc1x
    obtain ⟨r0, hv0, hu0, hres, _⟩ := validate_url_heuristic hash _ _ u2 hns hdf hrf
    have hc0 : r0.content = some c := by
      have hcc := apply_heuristics_content hash r0 (validate_url hash env seen u1).seen
      rw [← hres] at hcc
      rw [← hcc]
      exact hc2
    have hmem : hash c ∈ (validate_url hash env seen u1).seen := by
      rw [hseen1]; exact Finset.mem_insert_self _ _
    have hdup := apply_heuristics_dup hash r0 (validate_url hash env seen u1).seen c
      (by rw [hu0]; exact harc) hc0 hstrip hmem
    constructor
    · rw [hres, hdup]; exact hv0
    · rw [hres, hdup]

/-- C5 counterexample: two candidates with identical extracted text
where the first is archive-shaped — the accepted record is the second,
not the first-seen one, and nothing is rejected as duplicate_content. -/
theorem cross_url_dedup_cex :
    ((validate_all id envArchiveDup ∅
      ["example.com/category/news", "example.com/my-post"]).getD 0
        (initResult "")).content =
      ((validate_all id envArchiveDup ∅
        ["example.com/category/news", "example.com/my-post"]).getD 1
          (initResult "")).content ∧
    ((validate_all id envArchiveDup ∅
      ["example.com/category/news", "example.com/my-post"]).getD 0
        (initResult "")).valid = false ∧
    ((validate_all id envArchiveDup ∅
      ["example.com/category/news", "example.com/my-post"]).getD 1
        (initResult "")).valid = true ∧
    ((validate_all id envArchiveDup ∅
      ["example.com/category/news", "example.com/my-post"]).getD 1
        (initResult "")).reason ≠ "duplicate_content" := by decide

/-- C5 witness: two non-archive candidates with identical extracted
text; the second is rejected as a duplicate. -/
theorem cross_url_dedup_witness :
    (validate_url id { envTwoPosts with
        fs := (validate_url id envTwoPosts ∅ "example.com/post-a").fs }
      (validate_url id envTwoPosts ∅ "example.com/post-a").seen
      "example.com/post-b").result.valid = false ∧
    (validate_url id { envTwoPosts with
        fs := (validate_url id envTwoPosts ∅ "example.com/post-a").fs }
      (validate_url id envTwoPosts ∅ "example.com/post-a").seen
      "example.com/post-b").result.reason = "duplicate_content" :=
  (cross_url_dedup id envTwoPosts ∅).2 "example.com/post-a" "example.com/post-b"
    "hello world" (by decide) (by decide) (by decide) (by decide) (by decide)
    (by decide) (by decide)

/-! ## fetch.py: retry-loop lemmas -/

/-- When every snapshot attempt fails, the retry loop keeps the status
and available count and bumps tried by the number of snapshots. -/
theorem attemptLoop_all_none (env : FetchEnv) (url : String) :
    ∀ (tss : List String) (rec : AssetRecord),
      (∀ ts ∈ tss, env.attempt url ts = none) →
      (attemptLoop env url tss rec).1.status = rec.status ∧
      (attemptLoop env url tss rec).1.snapshots_tried =
        rec.snapshots_tried + tss.length ∧
      (attemptLoop env url tss rec).1.snapshots_available =
        rec.snapshots_available := by
  intro tss
  induction tss with
  | nil => intro rec h; exact ⟨rfl, rfl, rfl⟩
  | cons ts rest ih =>
    intro rec h
    have hts : env.attempt url ts = none := h ts (by simp)
    obtain ⟨h1, h2, h3⟩ :=
      ih { rec with snapshots_tried := rec.snapshots_tried + 1 }
        (fun t ht => h t (by simp [ht]))
    simp only [attemptLoop, hts]
    refine ⟨h1, ?_, h3⟩
    rw [h2]
    simp only [List.length_cons]
    omega

/-- Every request of the retry loop references the asset's URL, and the
loop never changes the record's asset_url. -/
theorem attemptLoop_asset (env : FetchEnv) (url : String) :
    ∀ (tss : List String) (rec : AssetRecord),
      (attemptLoop env url tss rec).1.asset_url = rec.asset_url ∧
      (∀ req ∈ (attemptLoop env url tss rec).2, req.asset = url) := by
  intro tss
  induction tss with
  | nil =>
    intro rec
    exact ⟨rfl, by intro req h; simp [attemptLoop] at h⟩
  | cons ts rest ih =>
    intro rec
    rcases hts : env.attempt url ts with _ | n
    · obtain ⟨h1, h2⟩ := ih { rec with snapshots_tried := rec.snapshots_tried + 1 }
      simp only [attemptLoop, hts]
      refine ⟨h1, ?_⟩
      intro req hreq
      rcases List.mem_cons.mp hreq with rfl | hreq
      · rfl
      · exact h2 req hreq
    · simp only [attemptLoop, hts]
      refine ⟨by trivial, ?_⟩
      intro req hreq
      obtain rfl := List.mem_singleton.mp hreq
      rfl

theorem download_asset_asset_url (env : FetchEnv) (u : String) :
    (download_asset env u).1.asset_url = u := by
  simp only [download_asset]
  split
  · rfl
  · split
    · rfl
    · exact (attemptLoop_asset env u _ _).1

theorem download_asset_requests (env : FetchEnv) (u : String) :
    ∀ req ∈ (download_asset env u).2, req.asset = u := by
  simp only [download_asset]
  split
  · intro req h; simp at h
  · split
    · intro req h
      obtain rfl := List.mem_singleton.mp h
      rfl
    · intro req h
      rcases List.mem_cons.mp h with rfl | h
      · rfl
      · exact (attemptLoop_asset env u _ _).2 req h

/-- With no local file and every snapshot failing, download_asset ends
FAIL with tried = available = the number of snapshots returned. -/
theorem download_asset_all_fail (env : FetchEnv) (url : String)
    (hf : env.fileExists (mediaPathFor url) = false)
    (hfail : ∀ ts ∈ get_snapshots (env.cdx url), env.attempt url ts = none) :
    (download_asset env url).1.status = "FAIL" ∧
    (download_asset env url).1.snapshots_tried = (get_snapshots (env.cdx url)).length ∧
    (download_asset env url).1.snapshots_available =
      (get_snapshots (env.cdx url)).length := by
  by_cases hne : get_snapshots (env.cdx url) = []
  · unfold download_asset
    simp [hf, hne]
  · obtain ⟨h1, h2, h3⟩ := attemptLoop_all_none env url (get_snapshots (env.cdx url))
      { asset_url := url, local_path := mediaPathFor url, status := "FAIL",
        snapshots_tried := 0, snapshots_available := (get_snapshots (env.cdx url)).length,
        success_timestamp := none, size := none } hfail
    unfold download_asset
    simp only [hf, Bool.false_eq_true, if_false, hne, if_neg, ite_false]
    refine ⟨h1, ?_, h3⟩
    rw [h2]
    simp

/-! ## Claim C6: snapshot-exhaustion accounting -/

/-- C6 (confirmed): an asset with no local file whose index lookup
returns exactly 3 snapshots, all of whose attempts return non-success,
ends with status FAIL (the source's literal for the spec's fail) and
snapshots_tried = snapshots_available = 3. -/
theorem exhaustion_accounting (env : FetchEnv) (url : String)
    (hf : env.fileExists (mediaPathFor url) = false)
    (h3 : (get_snapshots (env.cdx url)).length = 3)
    (hfail : ∀ ts ∈ get_snapshots (env.cdx url), env.attempt url ts = none) :
    (download_asset env url).1.status = "FAIL" ∧
    (download_asset env url).1.snapshots_tried = 3 ∧
    (download_asset env url).1.snapshots_available = 3 := by
  obtain ⟨h1, h2, hA⟩ := download_asset_all_fail env url hf hfail
  rw [h3] at h2 hA
  exact ⟨h1, h2, hA⟩

/-- C6 witness: a concrete asset with three available snapshots, all
failing. -/
theorem exhaustion_accounting_witness :
    (download_asset envAllFail "http://example.com/img/a.png").1.status = "FAIL" ∧
    (download_asset envAllFail "http://example.com/img/a.png").1.snapshots_tried = 3 ∧
    (download_asset envAllFail "http://example.com/img/a.png").1.snapshots_available = 3 :=
  exhaustion_accounting envAllFail "http://example.com/img/a.png"
    (by decide) (by decide) (by decide)

/-! ## Claim C7: index lookups never surface errors -/

/-- C7 (confirmed): the three archive-index lookups are total functions
of the request outcome; a transport error, an undecodable body, and a
non-200 status all yield the empty result, indistinguishable from a
well-formed response with no snapshots (empty body / header-only
rows). -/
theorem index_lookup_error_empty :
    (query_cdx .transportError = [] ∧
      (∀ s b, s ≠ 200 → query_cdx (.ok s b) = []) ∧
      query_cdx (.ok 200 "") = []) ∧
    (get_snapshots .transportError = [] ∧
      (∀ s, get_snapshots (.malformed s) = []) ∧
      (∀ s rows, s ≠ 200 → get_snapshots (.ok s rows) = []) ∧
      (∀ hdr, get_snapshots (.ok 200 [hdr]) = [])) ∧
    (∀ url, find_snapshot url .transportError = none ∧
      (∀ s, find_snapshot url (.malformed s) = none) ∧
      (∀ s rows, s ≠ 200 → find_snapshot url (.ok s rows) = none) ∧
      (∀ hdr, find_snapshot url (.ok 200 [hdr]) = none)) := by
  refine ⟨⟨rfl, ?_, by decide⟩,
    ⟨rfl, fun s => rfl, ?_, fun hdr => ?_⟩,
    fun url => ⟨rfl, fun s => rfl, ?_, fun hdr => ?_⟩⟩
  · intro s b hs; simp [query_cdx, hs]
  · intro s rows hs; simp [get_snapshots, hs]
  · simp [get_snapshots]
  · intro s rows hs; simp [find_snapshot, hs]
  · simp [find_snapshot]

/-- C7 witness: concrete non-200 responses yield empty results. -/
theorem index_lookup_error_empty_witness :
    query_cdx (.ok 404 "body") = [] ∧
    get_snapshots (.ok 500 [["a", "b"], ["c", "d"]]) = [] ∧
    find_snapshot "example.com/x" (.ok 403 [["a", "b"], ["c", "d"]]) = none :=
  ⟨index_lookup_error_empty.1.2.1 404 "body" (by decide),
   index_lookup_error_empty.2.1.2.2.1 500 [["a", "b"], ["c", "d"]] (by decide),
   (index_lookup_error_empty.2.2 "example.com/x").2.2.1 403 [["a", "b"], ["c", "d"]]
     (by decide)⟩

/-! ## Claim C8: ledger resumability -/

/-- C8 (confirmed): an asset whose loaded ledger entry is OK is
excluded from the to-fetch set before any download task exists, so the
pass issues no network request referencing it. -/
theorem ledger_resumability (env : FetchEnv) (mediaUrls : List String)
    (previous : String → Option String) (A : String)
    (hA : previous A = some "OK") :
    A ∉ to_fetch mediaUrls previous ∧
    ∀ req ∈ pass_requests env mediaUrls previous, req.asset ≠ A := by
  constructor
  · intro hmem
    have hfil := (List.mem_filter.mp hmem).2
    simp only [decide_eq_true_eq] at hfil
    exact hfil hA
  · intro req hreq
    obtain ⟨u, hu, hru⟩ := List.mem_flatMap.mp hreq
    have hfil := (List.mem_filter.mp hu).2
    simp only [decide_eq_true_eq] at hfil
    rw [download_asset_requests env u req hru]
    intro h
    subst h
    exact hfil hA

/-- C8 witness: the previously successful asset is not in the to-fetch
set. -/
theorem ledger_resumability_witness :
    "http://example.com/img/a.png" ∉
      to_fetch ["http://example.com/img/a.png"] prevLedgerOK :=
  (ledger_resumability envAllFail ["http://example.com/img/a.png"] prevLedgerOK
    "http://example.com/img/a.png" (by decide)).1

/-! ## Claim C1: ledger rewrite across passes -/

/-- C1 (corrected): save_results rewrites the ledger with only the
current pass's results — it does not merge them with the previous
ledger.  An asset recorded OK in the previous ledger is excluded from
the to-fetch set, so the rewritten ledger holds no record for it at
all (rather than still containing its success record). -/
theorem ledger_replaced (env : FetchEnv) (mediaUrls : List String)
    (previous : String → Option String) (A : String)
    (hA : previous A = some "OK") :
    ∀ rec ∈ ledger_after_pass env mediaUrls previous, rec.asset_url ≠ A := by
  intro rec hrec
  obtain ⟨u, hu, hru⟩ := List.mem_map.mp hrec
  have hfil := (List.mem_filter.mp hu).2
  simp only [decide_eq_true_eq] at hfil
  rw [← hru, download_asset_asset_url]
  intro h
  subst h
  exact hfil hA

/-- C1 counterexample: the only media asset is recorded OK in the
previous ledger; after the pass the rewritten ledger is empty — the
success record was dropped, not carried through a merge. -/
theorem ledger_merge_cex :
    prevLedgerOK "http://example.com/img/a.png" = some "OK" ∧
    ledger_after_pass envAllFail ["http://example.com/img/a.png"] prevLedgerOK = [] :=
  ⟨rfl, rfl⟩

/-- C1 witness: in a pass over two assets, the record written for the
still-pending asset is not a record for the previously successful
one. -/
theorem ledger_replaced_witness :
    (download_asset envAllFail "http://example.com/img/b.png").1.asset_url ≠
      "http://example.com/img/a.png" :=
  ledger_replaced envAllFail
    ["http://example.com/img/a.png", "http://example.com/img/b.png"] prevLedgerOK
    "http://example.com/img/a.png" (by decide)
    (download_asset envAllFail "http://example.com/img/b.png").1 (by decide)

end Waybackpress
